import Mathlib

/-!
Verification of the ray/plane geometric kernel (src/math/Ray.js and
src/math/Plane.js) against its specification.

The numeric model is exact arithmetic: a `LinearOrderedField` for the
routines that use only field operations and comparisons, and `ℝ` with
`Real.sqrt` for the routines that take square roots.  `Ray.intersectBox`
additionally manipulates the IEEE special values `Infinity` and `NaN`
(produced by `1 / 0` and `0 * Infinity`), so its model computes over
`JsNum α`, field elements extended with both infinities and `NaN`, with
the JavaScript comparison and arithmetic rules for those values.

The `Vector3` collaborator is not part of the repository's files; its
operations (add, subtract, scale, dot, cross, length, normalize,
distance) are modelled from the spec with their standard meaning.
-/

set_option maxHeartbeats 1600000

namespace Three

/-- Modelled from the spec: the out-of-scope `Vector3` collaborator, a
3-component vector.  The spec lists its operations (add, subtract, scale,
dot, cross, length, normalize, distance) with their standard meaning. -/
structure Vector3 (α : Type) where
  x : α
  y : α
  z : α
  deriving DecidableEq

variable {α : Type} [LinearOrderedField α]

/-- Componentwise vector addition (`Vector3.add`). -/
def Vector3.add (v w : Vector3 α) : Vector3 α :=
  ⟨v.x + w.x, v.y + w.y, v.z + w.z⟩

/-- Componentwise vector subtraction (`Vector3.sub` / `subVectors`). -/
def Vector3.sub (v w : Vector3 α) : Vector3 α :=
  ⟨v.x - w.x, v.y - w.y, v.z - w.z⟩

/-- Scaling by a scalar (`Vector3.multiplyScalar`). -/
def Vector3.multiplyScalar (v : Vector3 α) (s : α) : Vector3 α :=
  ⟨v.x * s, v.y * s, v.z * s⟩

/-- Division by a scalar (`Vector3.divideScalar`). -/
def Vector3.divideScalar (v : Vector3 α) (s : α) : Vector3 α :=
  ⟨v.x / s, v.y / s, v.z / s⟩

/-- Dot product (`Vector3.dot`). -/
def Vector3.dot (v w : Vector3 α) : α :=
  v.x * w.x + v.y * w.y + v.z * w.z

/-- Cross product (`Vector3.cross` / `crossVectors`). -/
def Vector3.cross (v w : Vector3 α) : Vector3 α :=
  ⟨v.y * w.z - v.z * w.y, v.z * w.x - v.x * w.z, v.x * w.y - v.y * w.x⟩

/-- Squared length (`Vector3.lengthSq`). -/
def Vector3.lengthSq (v : Vector3 α) : α :=
  v.x * v.x + v.y * v.y + v.z * v.z

/-- Squared distance between two points (`Vector3.distanceToSquared`). -/
def Vector3.distanceToSquared (v w : Vector3 α) : α :=
  (v.sub w).lengthSq

/-- Length (`Vector3.length`): the square root of `lengthSq`. -/
noncomputable def Vector3.length (v : Vector3 ℝ) : ℝ :=
  Real.sqrt v.lengthSq

/-- Distance between two points (`Vector3.distanceTo`). -/
noncomputable def Vector3.distanceTo (v w : Vector3 ℝ) : ℝ :=
  Real.sqrt (v.distanceToSquared w)

/-- Normalization (`Vector3.normalize`): division of each component by the
length. -/
noncomputable def Vector3.normalize (v : Vector3 ℝ) : Vector3 ℝ :=
  v.divideScalar v.length

/-- `Ray` from src/math/Ray.js: an origin point and a direction vector
(caller-contracted to be unit length). -/
structure Ray (α : Type) where
  origin : Vector3 α
  direction : Vector3 α

/-- `Ray.at`: the point `origin + t * direction`.  (`at` is a reserved word
in Lean, hence the guillemets.) -/
def Ray.«at» (r : Ray α) (t : α) : Vector3 α :=
  (r.direction.multiplyScalar t).add r.origin

/-- `Sphere`: the out-of-scope sphere collaborator, a center and a radius. -/
structure Sphere (α : Type) where
  center : Vector3 α
  radius : α

/-- `Ray.distanceSqToPoint` from src/math/Ray.js lines 153-169: squared
distance from the ray (clamped at the origin) to a point. -/
def Ray.distanceSqToPoint (r : Ray α) (point : Vector3 α) : α :=
  let directionDistance := (point.sub r.origin).dot r.direction
  if directionDistance < 0 then
    r.origin.distanceToSquared point
  else
    ((r.direction.multiplyScalar directionDistance).add r.origin).distanceToSquared point

/-- `Ray.intersectSphere` from src/math/Ray.js lines 303-332. -/
noncomputable def Ray.intersectSphere (r : Ray ℝ) (sphere : Sphere ℝ) :
    Option (Vector3 ℝ) :=
  let v := sphere.center.sub r.origin
  let tca := v.dot r.direction
  let d2 := v.dot v - tca * tca
  let radius2 := sphere.radius * sphere.radius
  if d2 > radius2 then none
  else
    let thc := Real.sqrt (radius2 - d2)
    let t0 := tca - thc
    let t1 := tca + thc
    if t0 < 0 ∧ t1 < 0 then none
    else if t0 < 0 then some (r.«at» t1)
    else some (r.«at» t0)

/-- `Ray.intersectsSphere` from src/math/Ray.js lines 339-343: the boolean
test `distanceSqToPoint(center) <= radius * radius`. -/
def Ray.intersectsSphere (r : Ray ℝ) (sphere : Sphere ℝ) : Prop :=
  r.distanceSqToPoint sphere.center ≤ sphere.radius * sphere.radius

/-- `Plane` from src/math/Plane.js: a normal vector (caller-contracted to be
unit length) and the plane's signed constant, with the plane the set of
points `p` with `dot(normal, p) + constant = 0`. -/
structure Plane (α : Type) where
  normal : Vector3 α
  constant : α

/-- `Plane.distanceToPoint` from src/math/Plane.js lines 156-160. -/
def Plane.distanceToPoint (p : Plane α) (point : Vector3 α) : α :=
  p.normal.dot point + p.constant

/-- `Plane.setFromNormalAndCoplanarPoint` from src/math/Plane.js lines 72-81
(the methods mutate `this`; the model returns the resulting plane). -/
def Plane.setFromNormalAndCoplanarPoint (normal point : Vector3 α) : Plane α :=
  ⟨normal, -(point.dot normal)⟩

/-- `Plane.setFromCoplanarPoints` from src/math/Plane.js lines 94-105:
normal `normalize(cross(c - b, a - b))`, constant from the point `a`. -/
noncomputable def Plane.setFromCoplanarPoints (a b c : Vector3 ℝ) : Plane ℝ :=
  let normal := ((c.sub b).cross (a.sub b)).normalize
  Plane.setFromNormalAndCoplanarPoint normal a

/-- `Plane.normalize` from src/math/Plane.js lines 126-136: rescale the
normal to unit length and the constant by the same factor. -/
noncomputable def Plane.normalize (p : Plane ℝ) : Plane ℝ :=
  let inverseNormalLength := 1 / p.normal.length
  ⟨p.normal.multiplyScalar inverseNormalLength, p.constant * inverseNormalLength⟩

/-- `Line3`: the out-of-scope line-segment collaborator, two endpoints.
(`end` is a reserved word in Lean; the end point is `endPoint`.) -/
structure Line3 (α : Type) where
  start : Vector3 α
  endPoint : Vector3 α

/-- `Line3.delta`: the vector `end - start`, as the spec describes the
collaborator. -/
def Line3.delta (l : Line3 α) : Vector3 α :=
  l.endPoint.sub l.start

/-- `Plane.intersectLine` from src/math/Plane.js lines 198-238. -/
def Plane.intersectLine (p : Plane α) (line : Line3 α) : Option (Vector3 α) :=
  let direction := line.delta
  let denominator := p.normal.dot direction
  if denominator = 0 then
    if p.distanceToPoint line.start = 0 then some line.start else none
  else
    let t := -(line.start.dot p.normal + p.constant) / denominator
    if t < 0 ∨ t > 1 then none
    else some ((direction.multiplyScalar t).add line.start)

/-- `Ray.distanceToPlane` from src/math/Ray.js lines 350-376: the scalar
distance along the ray to the plane, `none` when the ray misses it. -/
def Ray.distanceToPlane (r : Ray α) (plane : Plane α) : Option α :=
  let denominator := plane.normal.dot r.direction
  if denominator = 0 then
    if plane.distanceToPoint r.origin = 0 then some 0 else none
  else
    let t := -(r.origin.dot plane.normal + plane.constant) / denominator
    if t ≥ 0 then some t else none

/-- The tail of `Ray.intersectTriangle` (src/math/Ray.js lines 558-596),
after `sign` and `DdN = |dot(direction, normal)|` have been fixed.  In the
source `_diff.cross(_edge2)` and `_edge1.cross(_diff)` overwrite the scratch
registers, but `_normal` and `_diff` are read before/unaffected, so the
values used are exactly the ones below. -/
def Ray.intersectTriangleTail (r : Ray α) (a edge1 edge2 normal : Vector3 α)
    (sign DdN : α) : Option (Vector3 α) :=
  let diff := r.origin.sub a
  let DdQxE2 := sign * r.direction.dot (diff.cross edge2)
  if DdQxE2 < 0 then none
  else
    let DdE1xQ := sign * r.direction.dot (edge1.cross diff)
    if DdE1xQ < 0 then none
    else if DdQxE2 + DdE1xQ > DdN then none
    else
      let QdN := -sign * diff.dot normal
      if QdN < 0 then none
      else some (r.«at» (QdN / DdN))

/-- `Ray.intersectTriangle` from src/math/Ray.js lines 524-597. -/
def Ray.intersectTriangle (r : Ray α) (a b c : Vector3 α)
    (backfaceCulling : Bool) : Option (Vector3 α) :=
  let edge1 := b.sub a
  let edge2 := c.sub a
  let normal := edge1.cross edge2
  let DdN := r.direction.dot normal
  if 0 < DdN then
    if backfaceCulling then none
    else r.intersectTriangleTail a edge1 edge2 normal 1 DdN
  else if DdN < 0 then
    r.intersectTriangleTail a edge1 edge2 normal (-1) (-DdN)
  else none

/-- `Box3`: the out-of-scope axis-aligned box collaborator, two corner
points `min` and `max`. -/
structure Box3 (α : Type) where
  min : Vector3 α
  max : Vector3 α

/-- A JavaScript double restricted to the values `Ray.intersectBox` can
produce from finite inputs: a finite field element, the two infinities
(from `1 / 0`), or `NaN` (from `0 * Infinity`). -/
inductive JsNum (α : Type) where
  | nan : JsNum α
  | pinf : JsNum α
  | ninf : JsNum α
  | fin : α → JsNum α
  deriving DecidableEq

/-- JavaScript `1 / x` for a finite `x`: `Infinity` at `x = 0` (zero is
positive zero), otherwise the exact reciprocal. -/
def jsInv (q : α) : JsNum α :=
  if q = 0 then .pinf else .fin (1 / q)

/-- JavaScript `<` on doubles: any comparison with `NaN` is false, the
infinities compare as expected. -/
def jsLt : JsNum α → JsNum α → Bool
  | .nan, _ => false
  | _, .nan => false
  | .ninf, .ninf => false
  | .ninf, _ => true
  | _, .ninf => false
  | .pinf, _ => false
  | _, .pinf => true
  | .fin a, .fin b => decide (a < b)

/-- JavaScript `<=` on doubles: any comparison with `NaN` is false. -/
def jsLe : JsNum α → JsNum α → Bool
  | .nan, _ => false
  | _, .nan => false
  | .ninf, _ => true
  | _, .ninf => false
  | _, .pinf => true
  | .pinf, _ => false
  | .fin a, .fin b => decide (a ≤ b)

/-- JavaScript multiplication of a finite double `a` with a double `v`:
`0 * Infinity` is `NaN`, otherwise signs propagate. -/
def jsMulFin (a : α) : JsNum α → JsNum α
  | .nan => .nan
  | .fin b => .fin (a * b)
  | .pinf => if a = 0 then .nan else if 0 < a then .pinf else .ninf
  | .ninf => if a = 0 then .nan else if 0 < a then .ninf else .pinf

/-- JavaScript addition of a double and a finite double. -/
def jsAddFin : JsNum α → α → JsNum α
  | .nan, _ => .nan
  | .pinf, _ => .pinf
  | .ninf, _ => .ninf
  | .fin a, b => .fin (a + b)

/-- `Ray.at` evaluated at a possibly non-finite parameter, as JavaScript
computes `direction * t + origin` componentwise. -/
def Ray.atJs (r : Ray α) (t : JsNum α) : Vector3 (JsNum α) :=
  ⟨jsAddFin (jsMulFin r.direction.x t) r.origin.x,
   jsAddFin (jsMulFin r.direction.y t) r.origin.y,
   jsAddFin (jsMulFin r.direction.z t) r.origin.z⟩

/-- `Ray.intersectBox` from src/math/Ray.js lines 436-503: the slab method
with per-axis reciprocal directions, with the JavaScript special-value
semantics (`tymin > tmin` is false when either side is `NaN`, and
`tmin !== tmin` detects `NaN`). -/
def Ray.intersectBox (r : Ray α) (box : Box3 α) : Option (Vector3 (JsNum α)) :=
  let invdirx := jsInv r.direction.x
  let invdiry := jsInv r.direction.y
  let invdirz := jsInv r.direction.z
  let origin := r.origin
  let tmin := if jsLe (.fin 0) invdirx then jsMulFin (box.min.x - origin.x) invdirx
              else jsMulFin (box.max.x - origin.x) invdirx
  let tmax := if jsLe (.fin 0) invdirx then jsMulFin (box.max.x - origin.x) invdirx
              else jsMulFin (box.min.x - origin.x) invdirx
  let tymin := if jsLe (.fin 0) invdiry then jsMulFin (box.min.y - origin.y) invdiry
               else jsMulFin (box.max.y - origin.y) invdiry
  let tymax := if jsLe (.fin 0) invdiry then jsMulFin (box.max.y - origin.y) invdiry
               else jsMulFin (box.min.y - origin.y) invdiry
  if jsLt tymax tmin || jsLt tmax tymin then none
  else
    let tmin := if jsLt tmin tymin || tmin = .nan then tymin else tmin
    let tmax := if jsLt tymax tmax || tmax = .nan then tymax else tmax
    let tzmin := if jsLe (.fin 0) invdirz then jsMulFin (box.min.z - origin.z) invdirz
                 else jsMulFin (box.max.z - origin.z) invdirz
    let tzmax := if jsLe (.fin 0) invdirz then jsMulFin (box.max.z - origin.z) invdirz
                 else jsMulFin (box.min.z - origin.z) invdirz
    if jsLt tzmax tmin || jsLt tmax tzmin then none
    else
      let tmin := if jsLt tmin tzmin || tmin = .nan then tzmin else tmin
      let tmax := if jsLt tzmax tmax || tmax = .nan then tzmax else tmax
      if jsLt tmax (.fin 0) then none
      else some (r.atJs (if jsLe (.fin 0) tmin then tmin else tmax))

/-- The result of `Ray.distanceSqToSegment`: the squared distance together
with the ray parameter `s0` and the segment-midpoint offset `s1` the source
computes (the two optional output points are written from `s0` and `s1`). -/
structure SegResult where
  sqrDist : ℝ
  s0 : ℝ
  s1 : ℝ

/-- `Ray.distanceSqToSegment` from src/math/Ray.js lines 179-296: the
six-region case analysis of the GTE ray/segment distance algorithm. -/
noncomputable def Ray.distanceSqToSegment (r : Ray ℝ) (v0 v1 : Vector3 ℝ) :
    SegResult :=
  let segCenter := (v0.add v1).multiplyScalar (1 / 2)
  let segDir := (v1.sub v0).normalize
  let diff := r.origin.sub segCenter
  let segExtent := v0.distanceTo v1 * (1 / 2)
  let a01 := -(r.direction.dot segDir)
  let b0 := diff.dot r.direction
  let b1 := -(diff.dot segDir)
  let c := diff.lengthSq
  let det := |1 - a01 * a01|
  if 0 < det then
    -- The ray and segment are not parallel.
    let s0 := a01 * b1 - b0
    let s1 := a01 * b0 - b1
    let extDet := segExtent * det
    if 0 ≤ s0 then
      if -extDet ≤ s1 then
        if s1 ≤ extDet then
          -- region 0: minimum at interior points of ray and segment
          let invDet := 1 / det
          let s0' := s0 * invDet
          let s1' := s1 * invDet
          ⟨s0' * (s0' + a01 * s1' + 2 * b0) + s1' * (a01 * s0' + s1' + 2 * b1) + c,
           s0', s1'⟩
        else
          -- region 1
          let s1' := segExtent
          let s0' := max 0 (-(a01 * s1' + b0))
          ⟨-s0' * s0' + s1' * (s1' + 2 * b1) + c, s0', s1'⟩
      else
        -- region 5
        let s1' := -segExtent
        let s0' := max 0 (-(a01 * s1' + b0))
        ⟨-s0' * s0' + s1' * (s1' + 2 * b1) + c, s0', s1'⟩
    else
      if s1 ≤ -extDet then
        -- region 4
        let s0' := max 0 (-(-a01 * segExtent + b0))
        let s1' := if 0 < s0' then -segExtent
                   else min (max (-segExtent) (-b1)) segExtent
        ⟨-s0' * s0' + s1' * (s1' + 2 * b1) + c, s0', s1'⟩
      else if s1 ≤ extDet then
        -- region 3
        let s0' := (0 : ℝ)
        let s1' := min (max (-segExtent) (-b1)) segExtent
        ⟨s1' * (s1' + 2 * b1) + c, s0', s1'⟩
      else
        -- region 2
        let s0' := max 0 (-(a01 * segExtent + b0))
        let s1' := if 0 < s0' then segExtent
                   else min (max (-segExtent) (-b1)) segExtent
        ⟨-s0' * s0' + s1' * (s1' + 2 * b1) + c, s0', s1'⟩
  else
    -- The ray and segment are parallel.
    let s1' := if 0 < a01 then -segExtent else segExtent
    let s0' := max 0 (-(a01 * s1' + b0))
    ⟨-s0' * s0' + s1' * (s1' + 2 * b1) + c, s0', s1'⟩

/-- The point the source writes into `optionalPointOnRay`:
`origin + s0 * direction`. -/
noncomputable def Ray.segPointOnRay (r : Ray ℝ) (v0 v1 : Vector3 ℝ) : Vector3 ℝ :=
  (r.direction.multiplyScalar (r.distanceSqToSegment v0 v1).s0).add r.origin

/-- The point the source writes into `optionalPointOnSegment`:
`segCenter + s1 * segDir`. -/
noncomputable def Ray.segPointOnSegment (r : Ray ℝ) (v0 v1 : Vector3 ℝ) : Vector3 ℝ :=
  ((v1.sub v0).normalize.multiplyScalar (r.distanceSqToSegment v0 v1).s1).add
    ((v0.add v1).multiplyScalar (1 / 2))

end Three

namespace Three

/-- Clamped squared ray-point distance in closed form, for a unit direction. -/
lemma distanceSqToPoint_closed (r : Ray ℝ) (p : Vector3 ℝ)
    (hd : r.direction.dot r.direction = 1) :
    r.distanceSqToPoint p =
      if (p.sub r.origin).dot r.direction < 0 then
        (p.sub r.origin).dot (p.sub r.origin)
      else
        (p.sub r.origin).dot (p.sub r.origin) -
          ((p.sub r.origin).dot r.direction) * ((p.sub r.origin).dot r.direction) := by
  obtain ⟨⟨ox, oy, oz⟩, ⟨dx, dy, dz⟩⟩ := r
  obtain ⟨px, py, pz⟩ := p
  simp only [Ray.distanceSqToPoint, Vector3.dot, Vector3.sub, Vector3.add,
    Vector3.multiplyScalar, Vector3.distanceToSquared, Vector3.lengthSq] at hd ⊢
  split_ifs with h
  · ring
  · linear_combination (((px - ox) * dx + (py - oy) * dy + (pz - oz) * dz) ^ 2) * hd

/-- With a unit direction the constructive and the boolean sphere tests
agree on every sphere (in exact arithmetic). -/
lemma intersectSphere_isSome_iff (r : Ray ℝ) (s : Sphere ℝ)
    (hd : r.direction.dot r.direction = 1) :
    (∃ p, r.intersectSphere s = some p) ↔ r.intersectsSphere s := by
  unfold Ray.intersectsSphere
  rw [distanceSqToPoint_closed r s.center hd]
  simp only [Ray.intersectSphere]
  set tca := (s.center.sub r.origin).dot r.direction with htca
  set vv := (s.center.sub r.origin).dot (s.center.sub r.origin) with hvv
  set rad2 := s.radius * s.radius with hrad2
  have hnex : ¬ ∃ _p : Vector3 ℝ, False := by
    rintro ⟨p, hp⟩
    exact hp
  have hthc0 : 0 ≤ Real.sqrt (rad2 - (vv - tca * tca)) := Real.sqrt_nonneg _
  split_ifs with h1 h2 h3 h4 h5 h6 h7
  · exact iff_of_false hnex (by push_neg; nlinarith [mul_self_nonneg tca])
  · exact iff_of_false hnex (by push_neg; linarith)
  · have hthc2 : Real.sqrt (rad2 - (vv - tca * tca)) ^ 2 = rad2 - (vv - tca * tca) :=
      Real.sq_sqrt (by linarith)
    have hlt : Real.sqrt (rad2 - (vv - tca * tca)) < -tca := by linarith [h3.2]
    exact iff_of_false hnex (by push_neg; nlinarith [hthc0, hlt, hthc2])
  · exact absurd (by linarith [hthc0, h3.2] : tca < 0) h4
  · have hthc2 : Real.sqrt (rad2 - (vv - tca * tca)) ^ 2 = rad2 - (vv - tca * tca) :=
      Real.sq_sqrt (by linarith)
    have hge : -tca ≤ Real.sqrt (rad2 - (vv - tca * tca)) := by
      by_contra hc
      push_neg at hc
      exact h3 ⟨h5, by linarith⟩
    exact iff_of_true ⟨_, rfl⟩ (by nlinarith [hthc0, hge, hthc2])
  · exact iff_of_true ⟨_, rfl⟩ (by linarith)
  · exact absurd (by linarith [hthc0] : 0 ≤ tca) (by simpa using h7)
  · exact iff_of_true ⟨_, rfl⟩ (by linarith)

end Three

namespace Three

/-- Cauchy-Schwarz for the 3-vector dot product (Lagrange identity). -/
lemma dot_sq_le_dot_mul_dot (v w : Vector3 ℝ) :
    v.dot w * (v.dot w) ≤ v.dot v * (w.dot w) := by
  obtain ⟨a, b, c⟩ := v
  obtain ⟨d, e, f⟩ := w
  simp only [Vector3.dot]
  nlinarith [sq_nonneg (b * f - c * e), sq_nonneg (c * d - a * f), sq_nonneg (a * e - b * d)]

/-- C1, counterexample: the claimed disagreement does not exist.  There is
no ray with unit-length direction and no sphere lying entirely behind the
ray's origin (`dot(center - origin, direction) + radius < 0`) on which
`intersectSphere` and `intersectsSphere` disagree. -/
theorem no_sphere_disagreement_behind :
    ¬ ∃ (r : Ray ℝ) (s : Sphere ℝ),
        r.direction.dot r.direction = 1 ∧
        (s.center.sub r.origin).dot r.direction + s.radius < 0 ∧
        ((r.intersectSphere s = none ∧ r.intersectsSphere s) ∨
         ((∃ p, r.intersectSphere s = some p) ∧ ¬ r.intersectsSphere s)) := by
  rintro ⟨r, s, hd, _hbehind, hdis⟩
  have hiff := intersectSphere_isSome_iff r s hd
  rcases hdis with ⟨hnone, htrue⟩ | ⟨hsome, hfalse⟩
  · obtain ⟨p, hp⟩ := hiff.mpr htrue
    rw [hnone] at hp
    exact Option.noConfusion hp
  · exact hfalse (hiff.mp hsome)

/-- C1, amended: for every ray with unit-length direction and every sphere
of nonnegative radius lying entirely behind the ray's origin, the two
methods agree: `intersectSphere` returns `none` and `intersectsSphere` is
false. -/
theorem intersectSphere_behind_agree (r : Ray ℝ) (s : Sphere ℝ)
    (hd : r.direction.dot r.direction = 1) (hrad : 0 ≤ s.radius)
    (hbehind : (s.center.sub r.origin).dot r.direction + s.radius < 0) :
    r.intersectSphere s = none ∧ ¬ r.intersectsSphere s := by
  have hcs := dot_sq_le_dot_mul_dot (s.center.sub r.origin) r.direction
  rw [hd, mul_one] at hcs
  have hfalse : ¬ r.intersectsSphere s := by
    unfold Ray.intersectsSphere
    rw [distanceSqToPoint_closed r s.center hd]
    rw [if_pos (by linarith)]
    push_neg
    nlinarith
  refine ⟨?_, hfalse⟩
  cases ho : r.intersectSphere s with
  | none => rfl
  | some p =>
      exact absurd ((intersectSphere_isSome_iff r s hd).mp ⟨p, ho⟩) hfalse

theorem intersectSphere_behind_agree_witness :
    Ray.intersectSphere ⟨⟨0, 0, 0⟩, ⟨0, 0, -1⟩⟩ ⟨⟨0, 0, 5⟩, 1⟩ = none ∧
    ¬ Ray.intersectsSphere ⟨⟨0, 0, 0⟩, ⟨0, 0, -1⟩⟩ ⟨⟨0, 0, 5⟩, 1⟩ :=
  intersectSphere_behind_agree _ _ (by norm_num [Vector3.dot]) (by norm_num)
    (by norm_num [Vector3.dot, Vector3.sub])

/-- C2: for every ray with unit-length direction and every sphere lying
entirely ahead of the ray's origin (`radius <= dot(center - origin,
direction)`), `intersectSphere` returns a point iff `intersectsSphere` is
true. -/
theorem intersectSphere_ahead_iff (r : Ray ℝ) (s : Sphere ℝ)
    (hd : r.direction.dot r.direction = 1)
    (_hahead : s.radius ≤ (s.center.sub r.origin).dot r.direction) :
    (∃ p, r.intersectSphere s = some p) ↔ r.intersectsSphere s :=
  intersectSphere_isSome_iff r s hd

theorem intersectSphere_ahead_iff_witness :
    ((∃ p, Ray.intersectSphere ⟨⟨0, 0, 0⟩, ⟨0, 0, -1⟩⟩ ⟨⟨0, 0, -5⟩, 1⟩ = some p) ↔
      Ray.intersectsSphere ⟨⟨0, 0, 0⟩, ⟨0, 0, -1⟩⟩ ⟨⟨0, 0, -5⟩, 1⟩) :=
  intersectSphere_ahead_iff _ _ (by norm_num [Vector3.dot])
    (by norm_num [Vector3.dot, Vector3.sub])

end Three

namespace Three

/-- C3: with `tca = dot(center - origin, direction)`,
`d2 = |center - origin|^2 - tca^2`, `thc = sqrt(radius^2 - d2)`,
`t0 = tca - thc`, `t1 = tca + thc`, `intersectSphere` returns `none` iff
`d2 > radius^2` or both `t0 < 0` and `t1 < 0`; it returns `at(t1)` when
`t0 < 0 <= t1` (origin inside the sphere) and `at(t0)` otherwise.  The
witness checks the two concrete scenarios of the claim. -/
theorem intersectSphere_cases (r : Ray ℝ) (s : Sphere ℝ) (tca d2 thc t0 t1 : ℝ)
    (_hd : r.direction.dot r.direction = 1)
    (htca : tca = (s.center.sub r.origin).dot r.direction)
    (hd2 : d2 = (s.center.sub r.origin).lengthSq - tca * tca)
    (hthc : thc = Real.sqrt (s.radius ^ 2 - d2))
    (ht0 : t0 = tca - thc)
    (ht1 : t1 = tca + thc) :
    (r.intersectSphere s = none ↔ s.radius ^ 2 < d2 ∨ (t0 < 0 ∧ t1 < 0)) ∧
    (t0 < 0 → 0 ≤ t1 → r.intersectSphere s = some (r.«at» t1)) ∧
    (d2 ≤ s.radius ^ 2 → 0 ≤ t0 → r.intersectSphere s = some (r.«at» t0)) := by
  have hls : ∀ v : Vector3 ℝ, v.lengthSq = v.dot v := fun _ => rfl
  subst htca
  subst hd2
  subst hthc
  subst ht0
  subst ht1
  simp only [hls, pow_two, Ray.intersectSphere]
  refine ⟨?_, ?_, ?_⟩
  · split_ifs with h1 h2 h3
    · exact iff_of_true rfl (Or.inl (by linarith))
    · exact iff_of_true rfl (Or.inr h2)
    · refine iff_of_false (by simp) ?_
      push_neg
      refine ⟨by linarith, fun _ => ?_⟩
      by_contra hc
      push_neg at hc
      exact h2 ⟨h3, hc⟩
    · refine iff_of_false (by simp) ?_
      push_neg
      exact ⟨by linarith, fun hlt => absurd hlt h3⟩
  · intro hlt hge
    split_ifs with h1 h2
    · exfalso
      have hz : Real.sqrt (s.radius * s.radius -
          ((s.center.sub r.origin).dot (s.center.sub r.origin) -
            (s.center.sub r.origin).dot r.direction *
              ((s.center.sub r.origin).dot r.direction))) = 0 :=
        Real.sqrt_eq_zero'.mpr (by linarith)
      rw [hz] at hlt hge
      linarith
    · exact absurd hge (by linarith [h2.2])
    · rfl
  · intro hle hge
    split_ifs with h1 h2 h3
    · exact absurd hle (by linarith)
    · exact absurd hge (by linarith [h2.1])
    · exact absurd hge (by linarith)
    · rfl

theorem intersectSphere_cases_witness :
    Ray.intersectSphere ⟨⟨0, 0, 0⟩, ⟨0, 0, -1⟩⟩ ⟨⟨0, 0, -5⟩, 1⟩ = some ⟨0, 0, -4⟩ ∧
    Ray.intersectSphere ⟨⟨0, 0, 0⟩, ⟨0, 0, -1⟩⟩ ⟨⟨0, 0, 5⟩, 1⟩ = none := by
  constructor
  · have h := (intersectSphere_cases ⟨⟨0, 0, 0⟩, ⟨0, 0, -1⟩⟩ ⟨⟨0, 0, -5⟩, 1⟩ 5 0 1 4 6
      (by norm_num [Vector3.dot]) (by norm_num [Vector3.dot, Vector3.sub])
      (by norm_num [Vector3.lengthSq, Vector3.sub, Vector3.dot])
      (by rw [show ((1 : ℝ) ^ 2 - 0) = 1 by norm_num, Real.sqrt_one])
      (by norm_num) (by norm_num)).2.2 (by norm_num) (by norm_num)
    rw [h]
    norm_num [Ray.«at», Vector3.multiplyScalar, Vector3.add]
  · exact (intersectSphere_cases ⟨⟨0, 0, 0⟩, ⟨0, 0, -1⟩⟩ ⟨⟨0, 0, 5⟩, 1⟩ (-5) 0 1 (-6) (-4)
      (by norm_num [Vector3.dot]) (by norm_num [Vector3.dot, Vector3.sub])
      (by norm_num [Vector3.lengthSq, Vector3.sub, Vector3.dot])
      (by rw [show ((1 : ℝ) ^ 2 - 0) = 1 by norm_num, Real.sqrt_one])
      (by norm_num) (by norm_num)).1.mpr (Or.inr ⟨by norm_num, by norm_num⟩)

end Three

namespace Three

variable {α : Type} [LinearOrderedField α]

/-- C6: `distanceToPlane` with `denominator = dot(plane.normal, direction)`
branches on the exact (not epsilon-tolerant) test `denominator = 0`: when
parallel it returns `0` if the origin lies exactly in the plane and `none`
otherwise; when not parallel it computes
`t = -(dot(origin, normal) + constant) / denominator` and returns `t` if
`t >= 0`, `none` if `t < 0`. -/
theorem distanceToPlane_cases (r : Ray α) (p : Plane α) :
    (p.normal.dot r.direction = 0 →
      (p.distanceToPoint r.origin = 0 → r.distanceToPlane p = some 0) ∧
      (p.distanceToPoint r.origin ≠ 0 → r.distanceToPlane p = none)) ∧
    (p.normal.dot r.direction ≠ 0 →
      (0 ≤ -(r.origin.dot p.normal + p.constant) / (p.normal.dot r.direction) →
        r.distanceToPlane p =
          some (-(r.origin.dot p.normal + p.constant) / (p.normal.dot r.direction))) ∧
      (-(r.origin.dot p.normal + p.constant) / (p.normal.dot r.direction) < 0 →
        r.distanceToPlane p = none)) := by
  simp only [Ray.distanceToPlane]
  split_ifs with h0 h1 h2
  · exact ⟨fun _ => ⟨fun _ => rfl, fun hne => absurd h1 hne⟩, fun hne => absurd h0 hne⟩
  · exact ⟨fun _ => ⟨fun h => absurd h h1, fun _ => rfl⟩, fun hne => absurd h0 hne⟩
  · exact ⟨fun h => absurd h h0,
      fun _ => ⟨fun _ => rfl, fun hlt => absurd hlt (not_lt.mpr h2)⟩⟩
  · exact ⟨fun h => absurd h h0,
      fun _ => ⟨fun hge => absurd hge h2, fun _ => rfl⟩⟩

/-- Commutativity of the modelled vector addition. -/
lemma vector3_add_comm (v w : Vector3 α) : v.add w = w.add v := by
  simp only [Vector3.add, Vector3.mk.injEq]
  exact ⟨add_comm _ _, add_comm _ _, add_comm _ _⟩

/-- C7: `intersectLine` with `denominator = dot(normal, end - start)`
branches on the exact test `denominator = 0`: when the segment is parallel
it returns the start point if that lies exactly in the plane, else `none`;
otherwise it computes the crossing parameter
`t = -(dot(start, normal) + constant) / denominator`, returns `none` when
`t` is outside `[0, 1]`, and the point `start + t * (end - start)`
otherwise. -/
theorem intersectLine_cases (p : Plane α) (line : Line3 α) :
    (p.normal.dot line.delta = 0 →
      (p.distanceToPoint line.start = 0 → p.intersectLine line = some line.start) ∧
      (p.distanceToPoint line.start ≠ 0 → p.intersectLine line = none)) ∧
    (p.normal.dot line.delta ≠ 0 →
      ((-(line.start.dot p.normal + p.constant) / (p.normal.dot line.delta) < 0 ∨
        1 < -(line.start.dot p.normal + p.constant) / (p.normal.dot line.delta)) →
        p.intersectLine line = none) ∧
      (0 ≤ -(line.start.dot p.normal + p.constant) / (p.normal.dot line.delta) →
        -(line.start.dot p.normal + p.constant) / (p.normal.dot line.delta) ≤ 1 →
        p.intersectLine line =
          some (line.start.add ((line.endPoint.sub line.start).multiplyScalar
            (-(line.start.dot p.normal + p.constant) / (p.normal.dot line.delta)))))) := by
  simp only [Plane.intersectLine]
  split_ifs with h0 h1 h2
  · exact ⟨fun _ => ⟨fun _ => rfl, fun hne => absurd h1 hne⟩, fun hne => absurd h0 hne⟩
  · exact ⟨fun _ => ⟨fun h => absurd h h1, fun _ => rfl⟩, fun hne => absurd h0 hne⟩
  · refine ⟨fun h => absurd h h0, fun _ => ⟨fun _ => rfl, fun hge hle => ?_⟩⟩
    rcases h2 with h | h
    · exact absurd hge (not_le.mpr h)
    · exact absurd hle (not_le.mpr h)
  · refine ⟨fun h => absurd h h0, fun _ => ⟨fun hor => absurd hor h2, fun _ _ => ?_⟩⟩
    rw [vector3_add_comm]
    rfl

end Three

namespace Three

variable {α : Type} [LinearOrderedField α]

/-- In a linear ordered field, a quotient by a positive denominator is
negative iff the numerator is. -/
lemma div_lt_zero_iff_of_pos {a b : α} (hb : 0 < b) : a / b < 0 ↔ a < 0 := by
  rw [div_lt_iff₀ hb, zero_mul]

/-- C5: with `n = cross(b - a, c - a)`, `DdN = dot(direction, n)`,
`sign = if DdN > 0 then 1 else -1`, the barycentric numerators
`num1 = sign * dot(direction, cross(origin - a, c - a))` and
`num2 = sign * dot(direction, cross(b - a, origin - a))`, and
`t = (-sign * dot(origin - a, n)) / |DdN|`, `intersectTriangle` returns
`none` iff `DdN > 0` with backface culling, or `DdN = 0`, or a numerator is
negative, or `num1 + num2 > |DdN|`, or `t < 0`; otherwise it returns
`at(t)`. -/
theorem intersectTriangle_cases (r : Ray α) (a b c : Vector3 α) (bf : Bool)
    (DdN sign num1 num2 t : α)
    (_hd : r.direction.dot r.direction = 1)
    (hDdN : DdN = r.direction.dot ((b.sub a).cross (c.sub a)))
    (hsign : sign = if 0 < DdN then 1 else -1)
    (hn1 : num1 = sign * r.direction.dot ((r.origin.sub a).cross (c.sub a)))
    (hn2 : num2 = sign * r.direction.dot ((b.sub a).cross (r.origin.sub a)))
    (ht : t = -sign * ((r.origin.sub a).dot ((b.sub a).cross (c.sub a))) / |DdN|) :
    (r.intersectTriangle a b c bf = none ↔
      (0 < DdN ∧ bf = true) ∨ DdN = 0 ∨ num1 < 0 ∨ num2 < 0 ∨
        |DdN| < num1 + num2 ∨ t < 0) ∧
    (¬ ((0 < DdN ∧ bf = true) ∨ DdN = 0 ∨ num1 < 0 ∨ num2 < 0 ∨
        |DdN| < num1 + num2 ∨ t < 0) →
      r.intersectTriangle a b c bf = some (r.«at» t)) := by
  subst hDdN
  subst hsign
  subst hn1
  subst hn2
  subst ht
  rcases lt_trichotomy (0 : α) (r.direction.dot ((b.sub a).cross (c.sub a))) with
    hpos | hzero | hneg
  · -- DdN > 0 : sign = 1
    have habs : |r.direction.dot ((b.sub a).cross (c.sub a))| =
        r.direction.dot ((b.sub a).cross (c.sub a)) := abs_of_pos hpos
    simp only [Ray.intersectTriangle, Ray.intersectTriangleTail, if_pos hpos, habs]
    cases bf with
    | true =>
        simp only [if_pos rfl]
        exact ⟨iff_of_true (by trivial) (Or.inl ⟨hpos, trivial⟩),
          fun hnd => absurd (Or.inl ⟨hpos, trivial⟩) hnd⟩
    | false =>
        simp only [Bool.false_eq_true, if_false, and_false, false_or,
          div_lt_zero_iff_of_pos hpos]
        have hne0 := ne_of_gt hpos
        split_ifs with g1 g2 g3 g4
        · exact ⟨iff_of_true (by trivial) (Or.inr (Or.inl g1)),
            fun hnd => absurd (Or.inr (Or.inl g1)) hnd⟩
        · exact ⟨iff_of_true (by trivial) (Or.inr (Or.inr (Or.inl g2))),
            fun hnd => absurd (Or.inr (Or.inr (Or.inl g2))) hnd⟩
        · exact ⟨iff_of_true (by trivial) (Or.inr (Or.inr (Or.inr (Or.inl g3)))),
            fun hnd => absurd (Or.inr (Or.inr (Or.inr (Or.inl g3)))) hnd⟩
        · exact ⟨iff_of_true (by trivial) (Or.inr (Or.inr (Or.inr (Or.inr g4)))),
            fun hnd => absurd (Or.inr (Or.inr (Or.inr (Or.inr g4)))) hnd⟩
        · refine ⟨iff_of_false (by simp) ?_, fun _ => rfl⟩
          push_neg
          exact ⟨fun hz => absurd hz (ne_of_gt hpos), le_of_not_lt g1,
            le_of_not_lt g2, le_of_not_lt g3, le_of_not_lt g4⟩
  · -- DdN = 0
    have hc1 : ¬ (0 : α) < r.direction.dot ((b.sub a).cross (c.sub a)) := by
      rw [← hzero]
      exact lt_irrefl 0
    have hc2 : ¬ r.direction.dot ((b.sub a).cross (c.sub a)) < 0 := by
      rw [← hzero]
      exact lt_irrefl 0
    simp only [Ray.intersectTriangle, if_neg hc1, if_neg hc2]
    exact ⟨iff_of_true (by trivial) (Or.inr (Or.inl hzero.symm)),
      fun hnd => absurd (Or.inr (Or.inl hzero.symm)) hnd⟩
  · -- DdN < 0 : sign = -1
    have habs : |r.direction.dot ((b.sub a).cross (c.sub a))| =
        -r.direction.dot ((b.sub a).cross (c.sub a)) := abs_of_neg hneg
    have hc1 : ¬ (0 : α) < r.direction.dot ((b.sub a).cross (c.sub a)) :=
      not_lt.mpr (le_of_lt hneg)
    have hposneg : (0 : α) < -r.direction.dot ((b.sub a).cross (c.sub a)) :=
      neg_pos.mpr hneg
    simp only [Ray.intersectTriangle, Ray.intersectTriangleTail, if_neg hc1,
      if_pos hneg, habs, div_lt_zero_iff_of_pos hposneg]
    simp only [(by simp [hc1] : ((0 : α) < r.direction.dot ((b.sub a).cross (c.sub a)) ∧
      bf = true) = False), false_or]
    split_ifs with g1 g2 g3 g4
    · exact ⟨iff_of_true (by trivial) (Or.inr (Or.inl g1)),
        fun hnd => absurd (Or.inr (Or.inl g1)) hnd⟩
    · exact ⟨iff_of_true (by trivial) (Or.inr (Or.inr (Or.inl g2))),
        fun hnd => absurd (Or.inr (Or.inr (Or.inl g2))) hnd⟩
    · exact ⟨iff_of_true (by trivial) (Or.inr (Or.inr (Or.inr (Or.inl g3)))),
        fun hnd => absurd (Or.inr (Or.inr (Or.inr (Or.inl g3)))) hnd⟩
    · exact ⟨iff_of_true (by trivial) (Or.inr (Or.inr (Or.inr (Or.inr g4)))),
        fun hnd => absurd (Or.inr (Or.inr (Or.inr (Or.inr g4)))) hnd⟩
    · refine ⟨iff_of_false (by simp) ?_, fun _ => rfl⟩
      push_neg
      exact ⟨fun hz => absurd hz (ne_of_lt hneg), le_of_not_lt g1,
        le_of_not_lt g2, le_of_not_lt g3, le_of_not_lt g4⟩

end Three

namespace Three

theorem intersectTriangle_cases_witness :
    Ray.intersectTriangle (⟨⟨0, 0, 0⟩, ⟨0, 0, -1⟩⟩ : Ray ℚ)
      ⟨-1, -1, -2⟩ ⟨-1, 3, -2⟩ ⟨3, -1, -2⟩ false = some ⟨0, 0, -2⟩ := by
  have habs : |(16 : ℚ)| = 16 := abs_of_pos (by norm_num)
  have h := (intersectTriangle_cases (⟨⟨0, 0, 0⟩, ⟨0, 0, -1⟩⟩ : Ray ℚ)
    ⟨-1, -1, -2⟩ ⟨-1, 3, -2⟩ ⟨3, -1, -2⟩ false 16 1 4 4 2
    (by norm_num [Vector3.dot])
    (by norm_num [Vector3.dot, Vector3.cross, Vector3.sub])
    (by norm_num)
    (by norm_num [Vector3.dot, Vector3.cross, Vector3.sub])
    (by norm_num [Vector3.dot, Vector3.cross, Vector3.sub])
    (by rw [habs]; norm_num [Vector3.dot, Vector3.cross, Vector3.sub])).2
    (by rw [habs]; norm_num)
  rw [h]
  norm_num [Ray.«at», Vector3.multiplyScalar, Vector3.add]

end Three

namespace Three

/-- C8: after `setFromCoplanarPoints(a, b, c)` with non-collinear points
(`cross(c - b, a - b)` nonzero), the plane's normal is
`normalize(cross(c - b, a - b))`, its constant is `-dot(a, normal)`, and
the signed distances of `a`, `b` and `c` are all exactly zero in real
arithmetic. -/
theorem setFromCoplanarPoints_distances (a b c : Vector3 ℝ)
    (_h : (c.sub b).cross (a.sub b) ≠ ⟨0, 0, 0⟩) :
    (Plane.setFromCoplanarPoints a b c).normal = ((c.sub b).cross (a.sub b)).normalize ∧
    (Plane.setFromCoplanarPoints a b c).constant =
      -(a.dot ((c.sub b).cross (a.sub b)).normalize) ∧
    (Plane.setFromCoplanarPoints a b c).distanceToPoint a = 0 ∧
    (Plane.setFromCoplanarPoints a b c).distanceToPoint b = 0 ∧
    (Plane.setFromCoplanarPoints a b c).distanceToPoint c = 0 := by
  refine ⟨rfl, rfl, ?_, ?_, ?_⟩ <;>
    · obtain ⟨ax, ay, az⟩ := a
      obtain ⟨bx, by', bz⟩ := b
      obtain ⟨cx, cy, cz⟩ := c
      simp only [Plane.setFromCoplanarPoints, Plane.setFromNormalAndCoplanarPoint,
        Plane.distanceToPoint, Vector3.normalize, Vector3.divideScalar, Vector3.length,
        Vector3.lengthSq, Vector3.cross, Vector3.sub, Vector3.dot]
      ring

theorem setFromCoplanarPoints_distances_witness :
    (Plane.setFromCoplanarPoints ⟨0, 0, 0⟩ ⟨1, 0, 0⟩ ⟨0, 1, 0⟩).normal =
      ((Vector3.sub ⟨0, 1, 0⟩ ⟨1, 0, 0⟩).cross (Vector3.sub ⟨0, 0, 0⟩ ⟨1, 0, 0⟩)).normalize ∧
    (Plane.setFromCoplanarPoints ⟨0, 0, 0⟩ ⟨1, 0, 0⟩ ⟨0, 1, 0⟩).constant =
      -(Vector3.dot ⟨0, 0, 0⟩
        ((Vector3.sub ⟨0, 1, 0⟩ ⟨1, 0, 0⟩).cross (Vector3.sub ⟨0, 0, 0⟩ ⟨1, 0, 0⟩)).normalize) ∧
    (Plane.setFromCoplanarPoints ⟨0, 0, 0⟩ ⟨1, 0, 0⟩ ⟨0, 1, 0⟩).distanceToPoint ⟨0, 0, 0⟩ = 0 ∧
    (Plane.setFromCoplanarPoints ⟨0, 0, 0⟩ ⟨1, 0, 0⟩ ⟨0, 1, 0⟩).distanceToPoint ⟨1, 0, 0⟩ = 0 ∧
    (Plane.setFromCoplanarPoints ⟨0, 0, 0⟩ ⟨1, 0, 0⟩ ⟨0, 1, 0⟩).distanceToPoint ⟨0, 1, 0⟩ = 0 :=
  setFromCoplanarPoints_distances ⟨0, 0, 0⟩ ⟨1, 0, 0⟩ ⟨0, 1, 0⟩
    (by norm_num [Vector3.cross, Vector3.sub, Vector3.mk.injEq])

/-- C10: for a plane with nonzero normal, `normalize` multiplies the normal
and the constant by the same positive factor `1 / |normal|`, so for every
point the sign of `distanceToPoint` is preserved and the zero set is
unchanged: the normalized plane is the same geometric plane. -/
theorem plane_normalize_same_plane (p : Plane ℝ) (h : p.normal ≠ ⟨0, 0, 0⟩) :
    p.normalize.normal = p.normal.multiplyScalar (1 / p.normal.length) ∧
    p.normalize.constant = p.constant * (1 / p.normal.length) ∧
    0 < 1 / p.normal.length ∧
    ∀ q : Vector3 ℝ,
      (0 < p.normalize.distanceToPoint q ↔ 0 < p.distanceToPoint q) ∧
      (p.normalize.distanceToPoint q = 0 ↔ p.distanceToPoint q = 0) ∧
      (p.normalize.distanceToPoint q < 0 ↔ p.distanceToPoint q < 0) := by
  have hpos : 0 < p.normal.lengthSq := by
    obtain ⟨⟨nx, ny, nz⟩, k⟩ := p
    simp only [Vector3.lengthSq]
    by_contra hc
    push_neg at hc
    have hxx : nx * nx = 0 :=
      le_antisymm (by nlinarith [mul_self_nonneg ny, mul_self_nonneg nz]) (mul_self_nonneg nx)
    have hyy : ny * ny = 0 :=
      le_antisymm (by nlinarith [mul_self_nonneg nx, mul_self_nonneg nz]) (mul_self_nonneg ny)
    have hzz : nz * nz = 0 :=
      le_antisymm (by nlinarith [mul_self_nonneg nx, mul_self_nonneg ny]) (mul_self_nonneg nz)
    exact h (by rw [show nx = 0 from mul_self_eq_zero.mp hxx,
      show ny = 0 from mul_self_eq_zero.mp hyy, show nz = 0 from mul_self_eq_zero.mp hzz])
  have hL : 0 < p.normal.length := Real.sqrt_pos.mpr hpos
  have hinv : 0 < 1 / p.normal.length := by positivity
  have key : ∀ q : Vector3 ℝ,
      p.normalize.distanceToPoint q = p.distanceToPoint q * (1 / p.normal.length) := by
    intro q
    obtain ⟨⟨nx, ny, nz⟩, k⟩ := p
    obtain ⟨qx, qy, qz⟩ := q
    simp only [Plane.normalize, Plane.distanceToPoint, Vector3.multiplyScalar, Vector3.dot]
    ring
  refine ⟨rfl, rfl, hinv, fun q => ?_⟩
  rw [key q]
  have hne : 1 / p.normal.length ≠ 0 := ne_of_gt hinv
  refine ⟨⟨fun hq => ?_, fun hq => mul_pos hq hinv⟩, ?_, ⟨fun hq => ?_, fun hq => ?_⟩⟩
  · nlinarith [hinv]
  · rw [mul_eq_zero]
    exact ⟨fun hq => hq.resolve_right hne, Or.inl⟩
  · nlinarith [hinv]
  · exact mul_neg_of_neg_of_pos hq hinv

theorem plane_normalize_same_plane_witness :
    (Plane.normalize ⟨⟨3, 4, 0⟩, 5⟩).normal =
      Vector3.multiplyScalar ⟨3, 4, 0⟩ (1 / Vector3.length ⟨3, 4, 0⟩) ∧
    (Plane.normalize ⟨⟨3, 4, 0⟩, 5⟩).constant = 5 * (1 / Vector3.length ⟨3, 4, 0⟩) ∧
    0 < 1 / Vector3.length ⟨3, 4, 0⟩ ∧
    ∀ q : Vector3 ℝ,
      (0 < (Plane.normalize ⟨⟨3, 4, 0⟩, 5⟩).distanceToPoint q ↔
        0 < Plane.distanceToPoint ⟨⟨3, 4, 0⟩, 5⟩ q) ∧
      ((Plane.normalize ⟨⟨3, 4, 0⟩, 5⟩).distanceToPoint q = 0 ↔
        Plane.distanceToPoint ⟨⟨3, 4, 0⟩, 5⟩ q = 0) ∧
      ((Plane.normalize ⟨⟨3, 4, 0⟩, 5⟩).distanceToPoint q < 0 ↔
        Plane.distanceToPoint ⟨⟨3, 4, 0⟩, 5⟩ q < 0) :=
  plane_normalize_same_plane ⟨⟨3, 4, 0⟩, 5⟩ (by norm_num [Vector3.mk.injEq])

end Three

namespace Three

variable {α : Type} [LinearOrderedField α]

/-- The running-bound update of the slab method, as the claim words it: a
`NaN` running bound is replaced by the other axis's bound, otherwise the
bound advances only when the comparison (false on `NaN`) says so. -/
lemma jsMerge_eq (c : Bool) (a b : JsNum α) :
    (if c || a = JsNum.nan then b else a) =
      (if a = JsNum.nan then b else if c then b else a) := by
  by_cases h : a = JsNum.nan <;> cases c <;> simp [h]

/-- `intersectBox` as the claim describes it: per-axis slab intervals from
reciprocal direction components, `none` on an empty interval relative to the
running `[tmin, tmax]` or on a final `tmax < 0`, the point at `tmin` when
`tmin >= 0` and at `tmax` otherwise, and every `NaN` running bound replaced
by the other axis's bound. -/
def Ray.intersectBoxSpec (r : Ray α) (box : Box3 α) : Option (Vector3 (JsNum α)) :=
  let invdirx := jsInv r.direction.x
  let invdiry := jsInv r.direction.y
  let invdirz := jsInv r.direction.z
  let origin := r.origin
  let tmin := if jsLe (.fin 0) invdirx then jsMulFin (box.min.x - origin.x) invdirx
              else jsMulFin (box.max.x - origin.x) invdirx
  let tmax := if jsLe (.fin 0) invdirx then jsMulFin (box.max.x - origin.x) invdirx
              else jsMulFin (box.min.x - origin.x) invdirx
  let tymin := if jsLe (.fin 0) invdiry then jsMulFin (box.min.y - origin.y) invdiry
               else jsMulFin (box.max.y - origin.y) invdiry
  let tymax := if jsLe (.fin 0) invdiry then jsMulFin (box.max.y - origin.y) invdiry
               else jsMulFin (box.min.y - origin.y) invdiry
  if jsLt tymax tmin || jsLt tmax tymin then none
  else
    let tmin := if tmin = JsNum.nan then tymin else if jsLt tmin tymin then tymin else tmin
    let tmax := if tmax = JsNum.nan then tymax else if jsLt tymax tmax then tymax else tmax
    let tzmin := if jsLe (.fin 0) invdirz then jsMulFin (box.min.z - origin.z) invdirz
                 else jsMulFin (box.max.z - origin.z) invdirz
    let tzmax := if jsLe (.fin 0) invdirz then jsMulFin (box.max.z - origin.z) invdirz
                 else jsMulFin (box.min.z - origin.z) invdirz
    if jsLt tzmax tmin || jsLt tmax tzmin then none
    else
      let tmin := if tmin = JsNum.nan then tzmin else if jsLt tmin tzmin then tzmin else tmin
      let tmax := if tmax = JsNum.nan then tzmax else if jsLt tzmax tmax then tzmax else tmax
      if jsLt tmax (.fin 0) then none
      else some (r.atJs (if jsLe (.fin 0) tmin then tmin else tmax))

/-- C4: for every ray and box, the source's `intersectBox` is exactly the
claim's slab algorithm `intersectBoxSpec` (empty slab interval relative to
the running `[tmin, tmax]` or final `tmax < 0` give `none`; otherwise
`at(tmin)` when `tmin >= 0`, else `at(tmax)`; a `NaN` running bound is
replaced by the other axis's bound), and the `NaN` comparisons this relies
on are false in both directions.  The witness checks the claim's concrete
scenario, which itself takes the `NaN` path. -/
theorem intersectBox_matches_spec (r : Ray α) (box : Box3 α)
    (_hbox : box.min.x ≤ box.max.x ∧ box.min.y ≤ box.max.y ∧ box.min.z ≤ box.max.z) :
    r.intersectBox box = r.intersectBoxSpec box ∧
    (∀ u : JsNum α, jsLt JsNum.nan u = false ∧ jsLt u JsNum.nan = false) := by
  constructor
  · simp only [Ray.intersectBox, Ray.intersectBoxSpec, jsMerge_eq]
  · intro u
    cases u <;> exact ⟨rfl, rfl⟩

end Three

namespace Three

theorem intersectBox_matches_spec_witness :
    Ray.intersectBox (⟨⟨-1, 1/2, 1⟩, ⟨0, 0, -1⟩⟩ : Ray ℚ) ⟨⟨-1, -1, -1⟩, ⟨1, 1, 1⟩⟩ =
      some ⟨JsNum.fin (-1), JsNum.fin (1/2), JsNum.fin 1⟩ ∧
    Ray.intersectBoxSpec (⟨⟨-1, 1/2, 1⟩, ⟨0, 0, -1⟩⟩ : Ray ℚ) ⟨⟨-1, -1, -1⟩, ⟨1, 1, 1⟩⟩ =
      some ⟨JsNum.fin (-1), JsNum.fin (1/2), JsNum.fin 1⟩ := by
  have h := (intersectBox_matches_spec (⟨⟨-1, 1/2, 1⟩, ⟨0, 0, -1⟩⟩ : Ray ℚ)
    ⟨⟨-1, -1, -1⟩, ⟨1, 1, 1⟩⟩ (by norm_num)).1
  have hc : Ray.intersectBox (⟨⟨-1, 1/2, 1⟩, ⟨0, 0, -1⟩⟩ : Ray ℚ) ⟨⟨-1, -1, -1⟩, ⟨1, 1, 1⟩⟩ =
      some ⟨JsNum.fin (-1), JsNum.fin (1/2), JsNum.fin 1⟩ := by
    norm_num [Ray.intersectBox, jsInv, jsLt, jsLe, jsMulFin, jsAddFin, Ray.atJs]
  exact ⟨hc, h ▸ hc⟩

end Three

namespace Three

/-- A nonzero modelled vector has positive squared length. -/
lemma lengthSq_pos_of_ne_zero (u : Vector3 ℝ) (hu : u ≠ ⟨0, 0, 0⟩) :
    0 < u.lengthSq := by
  obtain ⟨ux, uy, uz⟩ := u
  simp only [Vector3.lengthSq]
  by_contra hc
  push_neg at hc
  have hxx : ux * ux = 0 :=
    le_antisymm (by nlinarith [mul_self_nonneg uy, mul_self_nonneg uz]) (mul_self_nonneg ux)
  have hyy : uy * uy = 0 :=
    le_antisymm (by nlinarith [mul_self_nonneg ux, mul_self_nonneg uz]) (mul_self_nonneg uy)
  have hzz : uz * uz = 0 :=
    le_antisymm (by nlinarith [mul_self_nonneg ux, mul_self_nonneg uy]) (mul_self_nonneg uz)
  exact hu (by rw [show ux = 0 from mul_self_eq_zero.mp hxx,
    show uy = 0 from mul_self_eq_zero.mp hyy, show uz = 0 from mul_self_eq_zero.mp hzz])

/-- Normalizing a nonzero modelled vector yields a unit vector. -/
lemma normalize_self_dot (u : Vector3 ℝ) (hu : u ≠ ⟨0, 0, 0⟩) :
    u.normalize.dot u.normalize = 1 := by
  have hS := lengthSq_pos_of_ne_zero u hu
  have hL2 : u.length ^ 2 = u.lengthSq := Real.sq_sqrt (le_of_lt hS)
  have hLpos : 0 < u.length := Real.sqrt_pos.mpr hS
  have hLne : u.length ≠ 0 := ne_of_gt hLpos
  obtain ⟨ux, uy, uz⟩ := u
  simp only [Vector3.normalize, Vector3.divideScalar, Vector3.dot] at *
  field_simp
  simp only [Vector3.lengthSq] at hL2
  linear_combination -hL2

/-- Squared distance between a point of the ray and a point of the segment
line, expanded against the GTE coefficients, for unit `d` and `sd`. -/
lemma seg_sqr_general (o cen d sd : Vector3 ℝ) (s0 s1 : ℝ)
    (hd : d.dot d = 1) (hs : sd.dot sd = 1) :
    ((d.multiplyScalar s0).add o).distanceToSquared ((sd.multiplyScalar s1).add cen) =
      s0 * (s0 + -(d.dot sd) * s1 + 2 * ((o.sub cen).dot d)) +
        s1 * (-(d.dot sd) * s0 + s1 + 2 * -((o.sub cen).dot sd)) +
        (o.sub cen).lengthSq := by
  obtain ⟨ox, oy, oz⟩ := o
  obtain ⟨cx, cy, cz⟩ := cen
  obtain ⟨dx, dy, dz⟩ := d
  obtain ⟨sx, sy, sz⟩ := sd
  simp only [Vector3.multiplyScalar, Vector3.add, Vector3.sub, Vector3.dot,
    Vector3.distanceToSquared, Vector3.lengthSq] at *
  linear_combination (s0 ^ 2) * hd + (s1 ^ 2) * hs

/-- The clamped form of the previous expansion: valid whenever the ray
parameter is zero or satisfies the first-order condition of its region. -/
lemma seg_sqr_clamped (o cen d sd : Vector3 ℝ) (s0 s1 : ℝ)
    (hd : d.dot d = 1) (hs : sd.dot sd = 1)
    (hcl : s0 = 0 ∨ -(d.dot sd) * s1 + (o.sub cen).dot d = -s0) :
    ((d.multiplyScalar s0).add o).distanceToSquared ((sd.multiplyScalar s1).add cen) =
      -s0 * s0 + s1 * (s1 + 2 * -((o.sub cen).dot sd)) + (o.sub cen).lengthSq := by
  rw [seg_sqr_general o cen d sd s0 s1 hd hs]
  rcases hcl with h | h
  · rw [h]
    ring
  · linear_combination (2 * s0) * h

end Three

namespace Three

/-- The clamp `max 0 (-x)` is either zero or satisfies `x = -max 0 (-x)`. -/
lemma max_clamp_cases (x : ℝ) : max 0 (-x) = 0 ∨ x = -(max 0 (-x)) := by
  rcases le_or_lt (-x) 0 with h | h
  · exact Or.inl (max_eq_left h)
  · right
    rw [max_eq_right h.le]
    ring

/-- Bounds after dividing by a positive determinant. -/
lemma div_bounds {s e det : ℝ} (hdet : 0 < det) (hlo : -(e * det) ≤ s) (hhi : s ≤ e * det) :
    -e ≤ s * (1 / det) ∧ s * (1 / det) ≤ e := by
  constructor
  · rw [mul_one_div, le_div_iff₀ hdet]
    linarith
  · rw [mul_one_div, div_le_iff₀ hdet]
    linarith

end Three

namespace Three

/-- C9: the scalar returned by `distanceSqToSegment` is the squared distance
between the two written closest points; the ray parameter is nonnegative and
the segment offset lies within the segment's extent. -/
theorem distanceSqToSegment_correct (r : Ray ℝ) (v0 v1 : Vector3 ℝ)
    (hd : r.direction.dot r.direction = 1) (hne : v0 ≠ v1) :
    (r.distanceSqToSegment v0 v1).sqrDist =
      (r.segPointOnRay v0 v1).distanceToSquared (r.segPointOnSegment v0 v1) ∧
    0 ≤ (r.distanceSqToSegment v0 v1).s0 ∧
    -(v0.distanceTo v1 * (1 / 2)) ≤ (r.distanceSqToSegment v0 v1).s1 ∧
    (r.distanceSqToSegment v0 v1).s1 ≤ v0.distanceTo v1 * (1 / 2) := by
  have hsub : v1.sub v0 ≠ (⟨0, 0, 0⟩ : Vector3 ℝ) := by
    intro hz
    apply hne
    obtain ⟨ax, ay, az⟩ := v0
    obtain ⟨bx, by', bz⟩ := v1
    simp only [Vector3.sub, Vector3.mk.injEq] at hz ⊢
    exact ⟨by linarith [hz.1], by linarith [hz.2.1], by linarith [hz.2.2]⟩
  have hsd : ((v1.sub v0).normalize).dot ((v1.sub v0).normalize) = 1 :=
    normalize_self_dot _ hsub
  have hE0 : 0 ≤ v0.distanceTo v1 * (1 / 2) :=
    mul_nonneg (Real.sqrt_nonneg _) (by norm_num)
  simp only [Ray.segPointOnRay, Ray.segPointOnSegment]
  generalize hres : r.distanceSqToSegment v0 v1 = res
  simp only [Ray.distanceSqToSegment] at hres
  split_ifs at hres with h1 h2 h3 h4 h5 h6 h7 h8 h9
  · -- region 0
    subst hres
    dsimp only
    refine ⟨?_, ?_, ?_, ?_⟩
    · rw [seg_sqr_general _ _ _ _ _ _ hd hsd]
    · exact mul_nonneg h2 (one_div_nonneg.mpr (le_of_lt h1))
    · exact (div_bounds h1 h3 h4).1
    · exact (div_bounds h1 h3 h4).2
  · -- region 1
    subst hres
    dsimp only
    have hcl := max_clamp_cases
      (-(r.direction.dot ((v1.sub v0).normalize)) * (v0.distanceTo v1 * (1 / 2)) +
        (r.origin.sub ((v0.add v1).multiplyScalar (1 / 2))).dot r.direction)
    refine ⟨?_, le_max_left _ _, by linarith, le_refl _⟩
    rw [seg_sqr_clamped _ _ _ _ _ _ hd hsd hcl]
  · -- region 5
    subst hres
    dsimp only
    have hcl := max_clamp_cases
      (-(r.direction.dot ((v1.sub v0).normalize)) * -(v0.distanceTo v1 * (1 / 2)) +
        (r.origin.sub ((v0.add v1).multiplyScalar (1 / 2))).dot r.direction)
    refine ⟨?_, le_max_left _ _, le_refl _, by linarith⟩
    rw [seg_sqr_clamped _ _ _ _ _ _ hd hsd hcl]
  · -- region 4, ray parameter positive
    subst hres
    dsimp only
    rcases max_clamp_cases
        (-(-(r.direction.dot ((v1.sub v0).normalize))) * (v0.distanceTo v1 * (1 / 2)) +
          (r.origin.sub ((v0.add v1).multiplyScalar (1 / 2))).dot r.direction) with
      hm | hm
    · rw [hm] at h6
      exact absurd h6 (lt_irrefl 0)
    · refine ⟨?_, le_max_left _ _, le_refl _, by linarith⟩
      rw [seg_sqr_clamped _ _ _ _ _ _ hd hsd (Or.inr (by linear_combination hm))]
  · -- region 4, ray parameter clamped to zero
    subst hres
    dsimp only
    have h0 : max 0
        (-(-(-(r.direction.dot ((v1.sub v0).normalize))) * (v0.distanceTo v1 * (1 / 2)) +
          (r.origin.sub ((v0.add v1).multiplyScalar (1 / 2))).dot r.direction)) = 0 :=
      le_antisymm (not_lt.mp h6) (le_max_left _ _)
    refine ⟨?_, le_max_left _ _,
      le_min (le_max_left _ _) (by linarith), min_le_right _ _⟩
    rw [seg_sqr_clamped _ _ _ _ _ _ hd hsd (Or.inl h0)]
  · -- region 3
    subst hres
    dsimp only
    refine ⟨?_, le_refl 0,
      le_min (le_max_left _ _) (by linarith), min_le_right _ _⟩
    rw [seg_sqr_clamped _ _ _ _ _ _ hd hsd (Or.inl rfl)]
    ring
  · -- region 2, ray parameter positive
    subst hres
    dsimp only
    rcases max_clamp_cases
        (-(r.direction.dot ((v1.sub v0).normalize)) * (v0.distanceTo v1 * (1 / 2)) +
          (r.origin.sub ((v0.add v1).multiplyScalar (1 / 2))).dot r.direction) with
      hm | hm
    · rw [hm] at h8
      exact absurd h8 (lt_irrefl 0)
    · refine ⟨?_, le_max_left _ _, by linarith, le_refl _⟩
      rw [seg_sqr_clamped _ _ _ _ _ _ hd hsd (Or.inr hm)]
  · -- region 2, ray parameter clamped to zero
    subst hres
    dsimp only
    have h0 : max 0
        (-(-(r.direction.dot ((v1.sub v0).normalize)) * (v0.distanceTo v1 * (1 / 2)) +
          (r.origin.sub ((v0.add v1).multiplyScalar (1 / 2))).dot r.direction)) = 0 :=
      le_antisymm (not_lt.mp h8) (le_max_left _ _)
    refine ⟨?_, le_max_left _ _,
      le_min (le_max_left _ _) (by linarith), min_le_right _ _⟩
    rw [seg_sqr_clamped _ _ _ _ _ _ hd hsd (Or.inl h0)]
  · -- parallel, a01 > 0
    subst hres
    dsimp only
    have hcl := max_clamp_cases
      (-(r.direction.dot ((v1.sub v0).normalize)) * -(v0.distanceTo v1 * (1 / 2)) +
        (r.origin.sub ((v0.add v1).multiplyScalar (1 / 2))).dot r.direction)
    refine ⟨?_, le_max_left _ _, le_refl _, by linarith⟩
    rw [seg_sqr_clamped _ _ _ _ _ _ hd hsd hcl]
  · -- parallel, a01 <= 0
    subst hres
    dsimp only
    have hcl := max_clamp_cases
      (-(r.direction.dot ((v1.sub v0).normalize)) * (v0.distanceTo v1 * (1 / 2)) +
        (r.origin.sub ((v0.add v1).multiplyScalar (1 / 2))).dot r.direction)
    refine ⟨?_, le_max_left _ _, by linarith, le_refl _⟩
    rw [seg_sqr_clamped _ _ _ _ _ _ hd hsd hcl]

end Three

namespace Three

theorem distanceSqToSegment_correct_witness :
    (Ray.distanceSqToSegment ⟨⟨0, 0, 0⟩, ⟨0, 0, -1⟩⟩ ⟨1, 0, -1⟩ ⟨1, 0, -3⟩).sqrDist =
      (Ray.segPointOnRay ⟨⟨0, 0, 0⟩, ⟨0, 0, -1⟩⟩ ⟨1, 0, -1⟩ ⟨1, 0, -3⟩).distanceToSquared
        (Ray.segPointOnSegment ⟨⟨0, 0, 0⟩, ⟨0, 0, -1⟩⟩ ⟨1, 0, -1⟩ ⟨1, 0, -3⟩) ∧
    0 ≤ (Ray.distanceSqToSegment ⟨⟨0, 0, 0⟩, ⟨0, 0, -1⟩⟩ ⟨1, 0, -1⟩ ⟨1, 0, -3⟩).s0 ∧
    -(Vector3.distanceTo ⟨1, 0, -1⟩ ⟨1, 0, -3⟩ * (1 / 2)) ≤
      (Ray.distanceSqToSegment ⟨⟨0, 0, 0⟩, ⟨0, 0, -1⟩⟩ ⟨1, 0, -1⟩ ⟨1, 0, -3⟩).s1 ∧
    (Ray.distanceSqToSegment ⟨⟨0, 0, 0⟩, ⟨0, 0, -1⟩⟩ ⟨1, 0, -1⟩ ⟨1, 0, -3⟩).s1 ≤
      Vector3.distanceTo ⟨1, 0, -1⟩ ⟨1, 0, -3⟩ * (1 / 2) :=
  distanceSqToSegment_correct ⟨⟨0, 0, 0⟩, ⟨0, 0, -1⟩⟩ ⟨1, 0, -1⟩ ⟨1, 0, -3⟩
    (by norm_num [Vector3.dot]) (by norm_num [Vector3.mk.injEq])

end Three
